/-
Verification of the GGB→TikZ translator core (src/legacy/old-web/tikz-generator.js).

Shallow embedding conventions:
* JavaScript numbers are modelled as exact rationals (ℚ).  The source's
  `Number.isFinite` guards can therefore never fail in the model and are
  noted in doc comments where they occur; NaN/Infinity produced by a JS
  division is modelled by `Option` where the surrounding code tests
  finiteness (e.g. the function sampler's evaluator).
* `x.toFixed(n)` followed by `Number(...)` is modelled by rounding to n
  decimal places, ties away from zero (the JS `toFixed` rounding).
* `Math.sqrt` comparisons are rewritten to the equivalent comparisons on
  squares (noted where used).
-/
import Mathlib

namespace GGBTikz

/-- Rounding to an integer, ties away from zero: the rounding used by the
JavaScript `toFixed`. -/
def roundHalfAway (x : ℚ) : ℤ :=
  if 0 ≤ x then ⌊x + 1/2⌋ else -⌊-x + 1/2⌋

/-- `Number(x.toFixed(2))` from the source: round to two decimal places. -/
def round2 (x : ℚ) : ℚ := (roundHalfAway (100 * x) : ℚ) / 100

/-- `Number(x.toFixed(4))` from the source: round to four decimal places. -/
def round4 (x : ℚ) : ℚ := (roundHalfAway (10000 * x) : ℚ) / 10000

/-- The four canonical conic types produced by the classifier. -/
inductive ConicType where
  | circle | ellipse | parabola | hyperbola
  deriving DecidableEq, Repr

/-- The six-entry GeoGebra conic matrix
`A0·x² + A1·y² + A2 + 2·A3·x·y + 2·A4·x + 2·A5·y = 0`
(convention documented at `TikZGenerator.parseMatrix`). -/
structure GGBMatrix where
  A0 : ℚ
  A1 : ℚ
  A2 : ℚ
  A3 : ℚ
  A4 : ℚ
  A5 : ℚ
  deriving DecidableEq, Repr

/-- `GGBParser.inferConicTypeFromMatrix` (tikz-generator.js:3132–3143).
Reads `A = A0`, `C = A1`, `B = A3` (the raw half-coefficient entry, not
doubled) and classifies by `disc = B·B − 4·A·C` against `eps = 1e-10`. -/
def inferConicTypeFromMatrix (m : GGBMatrix) : ConicType :=
  let A := m.A0
  let C := m.A1
  let B := m.A3
  let eps : ℚ := 1 / 10 ^ 10
  let disc := B * B - 4 * A * C
  if |disc| ≤ eps then ConicType.parabola
  else if disc > eps then ConicType.hyperbola
  else if |B| ≤ eps ∧ |A - C| ≤ eps then ConicType.circle
  else ConicType.ellipse

/-- General-form conic coefficients `A x² + B xy + C y² + D x + E y + F = 0`. -/
structure ConicCoeffs where
  A : ℚ
  B : ℚ
  C : ℚ
  D : ℚ
  E : ℚ
  F : ℚ
  deriving DecidableEq, Repr

/-- `TikZGenerator.parseMatrix` (tikz-generator.js:1122–1136): converts the
GGB matrix entries to general-form coefficients, doubling the mixed and
linear entries.  The source's `Number.isFinite` null-guard cannot fire over
exact rationals, so the model is total. -/
def parseMatrix (m : GGBMatrix) : ConicCoeffs :=
  { A := m.A0, C := m.A1, F := m.A2
    B := m.A3 * 2, D := m.A4 * 2, E := m.A5 * 2 }

/-- `TikZGenerator.circleFromMatrix` (tikz-generator.js:1138–1149), with the
final `Math.sqrt(r2)` left symbolic: the model returns `(h, k, r²)`; the
source's radius is `√r²`.  Guards are exactly the source's:
`|B| > 1e-8 → null`, `|A−C| > 1e-8 ∨ |A| < 1e-12 → null`, `r² ≤ 0 → null`
(the `Number.isFinite` test cannot fail over ℚ). -/
def circleFromMatrix (mat : GGBMatrix) : Option (ℚ × ℚ × ℚ) :=
  let m := parseMatrix mat
  if |m.B| > 1 / 10 ^ 8 then none
  else if |m.A - m.C| > 1 / 10 ^ 8 ∨ |m.A| < 1 / 10 ^ 12 then none
  else
    let h := -m.D / (2 * m.A)
    let k := -m.E / (2 * m.C)
    let K := m.F - m.D * m.D / (4 * m.A) - m.E * m.E / (4 * m.C)
    let r2 := -K / m.A
    if r2 ≤ 0 then none else some (h, k, r2)

/-- The GGB matrix of the circle `x² + y² − 2hx − 2ky + (h² + k² − r²) = 0`
with center `(h,k)` and radius `r`: `A0 = A1 = 1`, `A2 = h² + k² − r²`,
`A3 = 0`, `A4 = −h`, `A5 = −k`. -/
def circleMatrixOf (h k r : ℚ) : GGBMatrix :=
  { A0 := 1, A1 := 1, A2 := h ^ 2 + k ^ 2 - r ^ 2, A3 := 0, A4 := -h, A5 := -k }

/-- C1 (counterexample): the claim says the classifier works with
`B = 2·A3` (the general-form mixed coefficient, as produced by
`parseMatrix`).  At `A0 = 1, A1 = 1, A3 = 3/2` the general-form
discriminant `B² − 4AC = 9 − 4 = 5` is positive, so the claim demands
`hyperbola`; the code uses the raw entry `A3` in its discriminant
(`9/4 − 4 = −7/4 < 0`) and returns `ellipse`. -/
theorem c1_counterexample :
    inferConicTypeFromMatrix ⟨1, 1, 0, 3/2, 0, 0⟩ = ConicType.ellipse ∧
    1 / 10 ^ 10 < (2 * (3/2) : ℚ) ^ 2 - 4 * 1 * 1 := by
  refine ⟨?_, by norm_num⟩
  unfold inferConicTypeFromMatrix
  rw [if_neg (by rw [abs_of_nonpos (by norm_num)]; norm_num),
    if_neg (by norm_num),
    if_neg (by rw [abs_of_nonneg (by norm_num)]; norm_num)]

/-- C1 (amended): `inferConicTypeFromMatrix` classifies by the sign of the
discriminant `A3² − 4·A0·A1` formed from the *raw* stored entry `A3` (half
the general-form `B`), against `eps = 1e-10`: near-zero ⇒ parabola,
positive ⇒ hyperbola, otherwise circle when `|A3| ≤ eps` and `A0 ≈ A1`,
else ellipse; and for six sign/magnitude combinations of `(A0, A3, A1)`
spanning the four types it returns the expected canonical type. -/
theorem c1_classification :
    (∀ m : GGBMatrix,
      (|m.A3 * m.A3 - 4 * m.A0 * m.A1| ≤ 1 / 10 ^ 10 →
        inferConicTypeFromMatrix m = ConicType.parabola) ∧
      (1 / 10 ^ 10 < m.A3 * m.A3 - 4 * m.A0 * m.A1 →
        inferConicTypeFromMatrix m = ConicType.hyperbola) ∧
      (m.A3 * m.A3 - 4 * m.A0 * m.A1 < -(1 / 10 ^ 10) →
        ((|m.A3| ≤ 1 / 10 ^ 10 ∧ |m.A0 - m.A1| ≤ 1 / 10 ^ 10) →
          inferConicTypeFromMatrix m = ConicType.circle) ∧
        (¬(|m.A3| ≤ 1 / 10 ^ 10 ∧ |m.A0 - m.A1| ≤ 1 / 10 ^ 10) →
          inferConicTypeFromMatrix m = ConicType.ellipse))) ∧
    inferConicTypeFromMatrix ⟨1, 1, 0, 0, 0, 0⟩ = ConicType.circle ∧
    inferConicTypeFromMatrix ⟨4, 1, 0, 0, 0, 0⟩ = ConicType.ellipse ∧
    inferConicTypeFromMatrix ⟨1, 0, 0, 0, 0, 0⟩ = ConicType.parabola ∧
    inferConicTypeFromMatrix ⟨0, 1, 0, 0, 0, 0⟩ = ConicType.parabola ∧
    inferConicTypeFromMatrix ⟨1, -1, 0, 0, 0, 0⟩ = ConicType.hyperbola ∧
    inferConicTypeFromMatrix ⟨0, 0, 0, 1, 0, 0⟩ = ConicType.hyperbola := by
  constructor
  · intro m
    unfold inferConicTypeFromMatrix
    refine ⟨fun h => ?_, fun h => ?_, fun h => ⟨fun hc => ?_, fun hc => ?_⟩⟩
    · rw [if_pos h]
    · rw [if_neg (by rw [abs_le]; push_neg; intro h'; linarith), if_pos h]
    · rw [if_neg (by rw [abs_le]; push_neg; intro h'; linarith),
        if_neg (by linarith), if_pos hc]
    · rw [if_neg (by rw [abs_le]; push_neg; intro h'; linarith),
        if_neg (by linarith), if_neg hc]
  · norm_num [inferConicTypeFromMatrix]

/-- C1 (witness): the hyperbola branch of the classification at the
concrete matrix `A0 = 1, A1 = −1, A3 = 0`. -/
theorem c1_classification_witness :
    1 / 10 ^ 10 < ((0 : ℚ) * 0 - 4 * 1 * (-1)) ∧
    inferConicTypeFromMatrix ⟨1, -1, 0, 0, 0, 0⟩ = ConicType.hyperbola :=
  ⟨by norm_num, (c1_classification.1 ⟨1, -1, 0, 0, 0, 0⟩).2.1 (by norm_num)⟩

/-- C9: decomposing the matrix of the circle with center `(h,k)` and radius
`r > 0` recovers the same center and the same squared radius `r²` exactly
(the source then takes `Math.sqrt(r²)`, i.e. recovers radius `r`, recorded
here as `√(r²) = r` over ℝ). -/
theorem c9_circle_roundtrip (h k r : ℚ) (hr : 0 < r) :
    circleFromMatrix (circleMatrixOf h k r) = some (h, k, r ^ 2) ∧
    Real.sqrt ((r : ℝ) ^ 2) = (r : ℝ) := by
  constructor
  · simp only [circleFromMatrix, circleMatrixOf, parseMatrix]
    rw [if_neg (by norm_num), if_neg (by norm_num)]
    split_ifs with h1
    · exfalso
      have e : -(h ^ 2 + k ^ 2 - r ^ 2 - -h * 2 * (-h * 2) / (4 * 1)
          - -k * 2 * (-k * 2) / (4 * 1)) / 1 = r ^ 2 := by ring
      rw [e] at h1
      nlinarith
    · refine congrArg some ?_
      simp only [Prod.mk.injEq]
      exact ⟨by ring, by ring, by ring⟩
  · exact Real.sqrt_sq (by exact_mod_cast hr.le)

/-- C9 (witness): the round-trip at center `(1,2)`, radius `3`. -/
theorem c9_circle_roundtrip_witness :
    (0 : ℚ) < 3 ∧
    (circleFromMatrix (circleMatrixOf 1 2 3) = some (1, 2, 3 ^ 2) ∧
      Real.sqrt ((3 : ℚ) ^ 2) = ((3 : ℚ) : ℝ)) :=
  ⟨by norm_num, c9_circle_roundtrip 1 2 3 (by norm_num)⟩

/-! ## Viewport/bounds engine (`TikZGenerator.computeSmartBounds`) -/

/-- A parsed point as consumed by `computeSmartBounds`: coordinates and the
visibility flag.  Coordinates are exact rationals, so the source's
`Number.isFinite` filter inside `push` never rejects. -/
structure SBPoint where
  x : ℚ
  y : ℚ
  visible : Bool
  deriving DecidableEq, Repr

/-- Axis bounds `{ xmin, xmax, ymin, ymax }`. -/
structure Bounds where
  xmin : ℚ
  xmax : ℚ
  ymin : ℚ
  ymax : ℚ
  deriving DecidableEq, Repr

/-- The slice of the generator options consumed by `computeSmartBounds`:
the four fallback bounds, the `smartBounds` flag and the four
`boundsOverrides` flags (`hasOwnProperty` checks recorded by the
constructor, tikz-generator.js:47–53). -/
structure SBOptions where
  smartBounds : Bool
  xmin : ℚ
  xmax : ℚ
  ymin : ℚ
  ymax : ℚ
  ovXmin : Bool
  ovXmax : Bool
  ovYmin : Bool
  ovYmax : Bool
  deriving DecidableEq, Repr

/-- The degenerate-extent floor from `computeSmartBounds`
(`if (dx < 1e-6) dx = 2`). -/
def flooredSpan (d : ℚ) : ℚ := if d < 1 / 10 ^ 6 then 2 else d

/-- `TikZGenerator.computeSmartBounds` (tikz-generator.js:196–248).  The
source accumulates `xs`/`ys` over the visible points (`forEach` + `push`),
which is the filter-then-map below; `Math.min(...xs)` / `Math.max(...xs)`
are the `foldl min` / `foldl max` over the array. -/
def computeSmartBounds (o : SBOptions) (points : List SBPoint) : Bounds :=
  let fallback : Bounds := ⟨o.xmin, o.xmax, o.ymin, o.ymax⟩
  if o.smartBounds = false then fallback
  else
    match points.filter (·.visible) with
    | [] => fallback
    | q :: qs =>
      let xmin := (qs.map (·.x)).foldl min q.x
      let xmax := (qs.map (·.x)).foldl max q.x
      let ymin := (qs.map (·.y)).foldl min q.y
      let ymax := (qs.map (·.y)).foldl max q.y
      let dx := flooredSpan (xmax - xmin)
      let dy := flooredSpan (ymax - ymin)
      let padX := max (8/10) (dx * (2/10))
      let padY := max (8/10) (dy * (2/10))
      { xmin := if o.ovXmin then o.xmin else round2 (xmin - padX)
        xmax := if o.ovXmax then o.xmax else round2 (xmax + padX)
        ymin := if o.ovYmin then o.ymin else round2 (ymin - padY)
        ymax := if o.ovYmax then o.ymax else round2 (ymax + padY) }

/-- A left fold of `min` over a list computes a least element. -/
theorem foldl_min_spec (l : List ℚ) (a : ℚ) :
    (l.foldl min a ∈ a :: l) ∧ ∀ b ∈ a :: l, l.foldl min a ≤ b := by
  induction l generalizing a with
  | nil => simp
  | cons c t ih =>
    simp only [List.foldl_cons]
    obtain ⟨hmem, hle⟩ := ih (min a c)
    constructor
    · simp only [List.mem_cons]
      rcases List.mem_cons.mp hmem with h | h
      · rcases min_choice a c with hm | hm
        · exact Or.inl (h.trans hm)
        · exact Or.inr (Or.inl (h.trans hm))
      · exact Or.inr (Or.inr h)
    · intro b hb
      rcases List.mem_cons.mp hb with rfl | hb'
      · exact le_trans (hle _ (List.mem_cons_self _ _)) (min_le_left _ _)
      rcases List.mem_cons.mp hb' with rfl | hb''
      · exact le_trans (hle _ (List.mem_cons_self _ _)) (min_le_right _ _)
      · exact hle _ (List.mem_cons_of_mem _ hb'')

/-- A left fold of `max` over a list computes a greatest element. -/
theorem foldl_max_spec (l : List ℚ) (a : ℚ) :
    (l.foldl max a ∈ a :: l) ∧ ∀ b ∈ a :: l, b ≤ l.foldl max a := by
  induction l generalizing a with
  | nil => simp
  | cons c t ih =>
    simp only [List.foldl_cons]
    obtain ⟨hmem, hle⟩ := ih (max a c)
    constructor
    · simp only [List.mem_cons]
      rcases List.mem_cons.mp hmem with h | h
      · rcases max_choice a c with hm | hm
        · exact Or.inl (h.trans hm)
        · exact Or.inr (Or.inl (h.trans hm))
      · exact Or.inr (Or.inr h)
    · intro b hb
      rcases List.mem_cons.mp hb with rfl | hb'
      · exact le_trans (le_max_left _ _) (hle _ (List.mem_cons_self _ _))
      rcases List.mem_cons.mp hb' with rfl | hb''
      · exact le_trans (le_max_right _ _) (hle _ (List.mem_cons_self _ _))
      · exact hle _ (List.mem_cons_of_mem _ hb'')

/-- Unfolding of `computeSmartBounds` when smart bounds are on and the
visible-point list is the non-empty `q :: qs`. -/
theorem computeSmartBounds_cons (o : SBOptions) (points : List SBPoint)
    (q : SBPoint) (qs : List SBPoint)
    (hs : o.smartBounds = true)
    (hvp : points.filter (·.visible) = q :: qs) :
    computeSmartBounds o points =
      { xmin := if o.ovXmin then o.xmin
          else round2 ((qs.map (·.x)).foldl min q.x -
            max (8/10) (flooredSpan ((qs.map (·.x)).foldl max q.x -
              (qs.map (·.x)).foldl min q.x) * (2/10)))
        xmax := if o.ovXmax then o.xmax
          else round2 ((qs.map (·.x)).foldl max q.x +
            max (8/10) (flooredSpan ((qs.map (·.x)).foldl max q.x -
              (qs.map (·.x)).foldl min q.x) * (2/10)))
        ymin := if o.ovYmin then o.ymin
          else round2 ((qs.map (·.y)).foldl min q.y -
            max (8/10) (flooredSpan ((qs.map (·.y)).foldl max q.y -
              (qs.map (·.y)).foldl min q.y) * (2/10)))
        ymax := if o.ovYmax then o.ymax
          else round2 ((qs.map (·.y)).foldl max q.y +
            max (8/10) (flooredSpan ((qs.map (·.y)).foldl max q.y -
              (qs.map (·.y)).foldl min q.y) * (2/10))) } := by
  unfold computeSmartBounds
  rw [hs, hvp]
  rfl

/-- C2: with smart bounds enabled and at least one visible point,
`computeSmartBounds` ignores invisible points (filtering them away first
changes nothing), and its result is built from the least and greatest
visible x/y coordinates: each axis extent is floored by `flooredSpan`,
padded by `max(0.8, extent·0.2)`, rounded to two decimals, and finally an
explicitly-passed bound overrides the computed one for its axis. -/
theorem c2_smart_bounds (o : SBOptions) (points : List SBPoint)
    (hs : o.smartBounds = true)
    (hne : points.filter (·.visible) ≠ []) :
    computeSmartBounds o points = computeSmartBounds o (points.filter (·.visible)) ∧
    ∃ xm xM ym yM : ℚ,
      (xm ∈ (points.filter (·.visible)).map (·.x) ∧
        ∀ b ∈ (points.filter (·.visible)).map (·.x), xm ≤ b) ∧
      (xM ∈ (points.filter (·.visible)).map (·.x) ∧
        ∀ b ∈ (points.filter (·.visible)).map (·.x), b ≤ xM) ∧
      (ym ∈ (points.filter (·.visible)).map (·.y) ∧
        ∀ b ∈ (points.filter (·.visible)).map (·.y), ym ≤ b) ∧
      (yM ∈ (points.filter (·.visible)).map (·.y) ∧
        ∀ b ∈ (points.filter (·.visible)).map (·.y), b ≤ yM) ∧
      computeSmartBounds o points =
        { xmin := if o.ovXmin then o.xmin
            else round2 (xm - max (8/10) (flooredSpan (xM - xm) * (2/10)))
          xmax := if o.ovXmax then o.xmax
            else round2 (xM + max (8/10) (flooredSpan (xM - xm) * (2/10)))
          ymin := if o.ovYmin then o.ymin
            else round2 (ym - max (8/10) (flooredSpan (yM - ym) * (2/10)))
          ymax := if o.ovYmax then o.ymax
            else round2 (yM + max (8/10) (flooredSpan (yM - ym) * (2/10))) } := by
  obtain ⟨q, qs, hvp⟩ := List.exists_cons_of_ne_nil hne
  have hfilter : (points.filter (·.visible)).filter (·.visible) =
      points.filter (·.visible) := by
    rw [List.filter_filter]
    simp
  have hlx : (points.filter (·.visible)).map (·.x) = q.x :: qs.map (·.x) := by
    rw [hvp, List.map_cons]
  have hly : (points.filter (·.visible)).map (·.y) = q.y :: qs.map (·.y) := by
    rw [hvp, List.map_cons]
  rw [hlx, hly]
  obtain ⟨hxm, hxm'⟩ := foldl_min_spec (qs.map (·.x)) q.x
  obtain ⟨hxM, hxM'⟩ := foldl_max_spec (qs.map (·.x)) q.x
  obtain ⟨hym, hym'⟩ := foldl_min_spec (qs.map (·.y)) q.y
  obtain ⟨hyM, hyM'⟩ := foldl_max_spec (qs.map (·.y)) q.y
  refine ⟨?_, ?_⟩
  · rw [computeSmartBounds_cons o points q qs hs hvp,
      computeSmartBounds_cons o (points.filter (·.visible)) q qs hs
        (by rw [hfilter, hvp])]
  · exact ⟨_, _, _, _, ⟨hxm, hxm'⟩, ⟨hxM, hxM'⟩, ⟨hym, hym'⟩, ⟨hyM, hyM'⟩,
      computeSmartBounds_cons o points q qs hs hvp⟩

/-- Example options for the C2 witness. -/
def sbOptsEx : SBOptions := ⟨true, -10, 10, -10, 10, false, false, false, false⟩

/-- Example point list for the C2 witness: one visible, one invisible point. -/
def sbPointsEx : List SBPoint := [⟨1, 2, true⟩, ⟨100, 100, false⟩]

/-- C2 (witness): the smart-bounds theorem applied at a concrete scene. -/
theorem c2_smart_bounds_witness :
    sbOptsEx.smartBounds = true ∧ sbPointsEx.filter (·.visible) ≠ [] ∧
    (computeSmartBounds sbOptsEx sbPointsEx =
        computeSmartBounds sbOptsEx (sbPointsEx.filter (·.visible)) ∧
      ∃ xm xM ym yM : ℚ,
        (xm ∈ (sbPointsEx.filter (·.visible)).map (·.x) ∧
          ∀ b ∈ (sbPointsEx.filter (·.visible)).map (·.x), xm ≤ b) ∧
        (xM ∈ (sbPointsEx.filter (·.visible)).map (·.x) ∧
          ∀ b ∈ (sbPointsEx.filter (·.visible)).map (·.x), b ≤ xM) ∧
        (ym ∈ (sbPointsEx.filter (·.visible)).map (·.y) ∧
          ∀ b ∈ (sbPointsEx.filter (·.visible)).map (·.y), ym ≤ b) ∧
        (yM ∈ (sbPointsEx.filter (·.visible)).map (·.y) ∧
          ∀ b ∈ (sbPointsEx.filter (·.visible)).map (·.y), b ≤ yM) ∧
        computeSmartBounds sbOptsEx sbPointsEx =
          { xmin := if sbOptsEx.ovXmin then sbOptsEx.xmin
              else round2 (xm - max (8/10) (flooredSpan (xM - xm) * (2/10)))
            xmax := if sbOptsEx.ovXmax then sbOptsEx.xmax
              else round2 (xM + max (8/10) (flooredSpan (xM - xm) * (2/10)))
            ymin := if sbOptsEx.ovYmin then sbOptsEx.ymin
              else round2 (ym - max (8/10) (flooredSpan (yM - ym) * (2/10)))
            ymax := if sbOptsEx.ovYmax then sbOptsEx.ymax
              else round2 (yM + max (8/10) (flooredSpan (yM - ym) * (2/10))) }) :=
  ⟨rfl, by simp [sbPointsEx], c2_smart_bounds sbOptsEx sbPointsEx rfl (by simp [sbPointsEx])⟩

/-! ## Function plotting: discontinuity detection and adaptive domain
splitting (`TikZGenerator.hasPotentialDiscontinuity`,
`TikZGenerator.splitFunctionDomains`, `TikZGenerator.generateFunctions`) -/

/-- A plotting sub-interval; `stop` is the source's `end` field (a reserved
word in Lean). -/
structure Seg where
  start : ℚ
  stop : ℚ
  deriving DecidableEq, Repr

/-- A regex word character `[A-Za-z0-9_]`, for the `\b` boundary of the
source's risky-function regex. -/
def isWordChar (c : Char) : Bool := c.isAlphanum || c = '_'

/-- The function names of the risky-call regex in
`hasPotentialDiscontinuity` (tikz-generator.js:537). -/
def riskyNames : List String := ["tan", "cot", "sec", "csc", "ln", "log", "sqrt", "asin", "acos"]

/-- Match a literal name at the head of a character list, returning the
remainder on success. -/
def stripName : List Char → List Char → Option (List Char)
  | [], rest => some rest
  | _ :: _, [] => none
  | n :: ns, c :: cs => if c = n then stripName ns cs else none

/-- Does one of the risky names, followed by optional whitespace and `(`,
start here?  (The `(tan|cot|…)\s*\(` part of the source regex.) -/
def nameThenParen (cs : List Char) : Bool :=
  riskyNames.any fun nm =>
    match stripName nm.data cs with
    | some rest => (rest.dropWhile Char.isWhitespace).head? = some '('
    | none => false

/-- Scan every position of the (lower-cased) expression for a risky call
preceded by a word boundary: the `\b(...)\s*\(` regex test. -/
def riskyScan : Bool → List Char → Bool
  | _, [] => false
  | prevWord, c :: cs =>
    (!prevWord && nameThenParen (c :: cs)) || riskyScan (isWordChar c) cs

/-- `TikZGenerator.hasPotentialDiscontinuity` (tikz-generator.js:533–541):
true when the lower-cased expression contains a risky function call
(`tan/cot/sec/csc/ln/log/sqrt/asin/acos` followed by `(`, at a word
boundary) or a `/` character.  `toLowerCase` is modelled character-wise by
`Char.toLower` (they agree on the ASCII range relevant here). -/
def hasPotentialDiscontinuity (expr : String) : Bool :=
  let s := expr.data.map Char.toLower
  riskyScan false s || s.contains '/'

/-- The per-sample acceptance test of `splitFunctionDomains`
(tikz-generator.js:572–578): the evaluated `y` must be finite (the
evaluator returning `none` models a thrown exception, `NaN` or `±∞`) and,
when the y-limit is active, inside `[y0, y1]`. -/
def sampleOK (f : ℚ → Option ℚ) (useY : Bool) (y0 y1 : ℚ) (x : ℚ) : Bool :=
  match f x with
  | none => false
  | some y => !useY || (decide (y0 ≤ y) && decide (y ≤ y1))

/-- The sampling loop of `splitFunctionDomains` (tikz-generator.js:570–592)
as a fuel-indexed recursion: state is `(runStart, prevX, segments)`,
processing sample indices `i, i+1, …` while fuel lasts. -/
def sampleGo (ok : ℚ → Bool) (x0 step minSpan : ℚ) :
    ℕ → ℕ → Option ℚ × ℚ × List Seg → Option ℚ × ℚ × List Seg
  | 0, _, st => st
  | n + 1, i, (runStart, prevX, segs) =>
    let x := x0 + step * (i : ℚ)
    let st' :=
      if ok x then
        (if runStart.isNone then (some x, x, segs) else (runStart, x, segs))
      else
        match runStart with
        | some rs =>
          if prevX - rs ≥ minSpan then
            (none, x, segs ++ [⟨round2 rs, round2 prevX⟩])
          else (none, x, segs)
        | none => (none, x, segs)
    sampleGo ok x0 step minSpan n (i + 1) st'

/-- The post-loop close of a still-open run (tikz-generator.js:594–602):
the final end value is `x1` itself. -/
def finalizeSampler (minSpan x1 : ℚ) (st : Option ℚ × ℚ × List Seg) : List Seg :=
  match st.1 with
  | some rs => if x1 - rs ≥ minSpan then st.2.2 ++ [⟨round2 rs, round2 x1⟩] else st.2.2
  | none => st.2.2

/-- `TikZGenerator.splitFunctionDomains` (tikz-generator.js:543–614).  The
JS evaluator built by `buildExprEvaluator` (a dynamic `new Function`, not
translatable) is passed in as `evalFn`; `none` models the construction
failing (the source then falls back to the 4-decimal whole interval).
`Number(null) = 0` explains `ymin.getD 0`; `useY` is `y1 > y0` (the
`isFinite` tests cannot fail over ℚ). -/
def splitFunctionDomains (expr : String) (evalFn : Option (ℚ → Option ℚ))
    (xmin xmax : ℚ) (ymin ymax : Option ℚ) (samples : ℕ) : List Seg :=
  if ¬(xmin < xmax) then []
  else if hasPotentialDiscontinuity expr = false then [⟨round2 xmin, round2 xmax⟩]
  else
    match evalFn with
    | none => [⟨round4 xmin, round4 xmax⟩]
    | some f =>
      let y0 := ymin.getD 0
      let y1 := ymax.getD 0
      let useY := decide (y0 < y1)
      let ok := sampleOK f useY y0 y1
      let step := (xmax - xmin) / (samples : ℚ)
      let minSpan := max (step * (3/2)) ((xmax - xmin) * (1/100))
      let segs := finalizeSampler minSpan xmax
        (sampleGo ok xmin step minSpan (samples + 1) 0 (none, xmin, []))
      if segs = [] then [⟨round2 xmin, round2 xmax⟩]
      else (segs.filter fun s => s.start < s.stop).map
        fun s => ⟨max (round2 xmin) s.start, min (round2 xmax) s.stop⟩

/-- Declarative specification side: scan indices `i, i+1, …` (while fuel
lasts) collecting the maximal runs of consecutive accepted indices as
`(first, last)` pairs; a run still open when the scan ends is closed at the
final index. -/
def runsGo (acc : ℕ → Bool) : ℕ → ℕ → Option ℕ → List (ℕ × ℕ)
  | 0, i, cur =>
    (match cur with
     | some a => [(a, i - 1)]
     | none => [])
  | n + 1, i, cur =>
    if acc i then runsGo acc n (i + 1) (some (cur.getD i))
    else
      match cur with
      | some a => (a, i - 1) :: runsGo acc n (i + 1) none
      | none => runsGo acc n (i + 1) none

/-- The maximal runs of consecutive accepted indices in `[0, lastIdx]`. -/
def maximalRuns (acc : ℕ → Bool) (lastIdx : ℕ) : List (ℕ × ℕ) :=
  runsGo acc (lastIdx + 1) 0 none

/-- Close an index run `(a, b)` into a rounded segment from sample `a` to
sample `b`, kept only when its span reaches `minSpan`. -/
def closeRun (x0 step minSpan : ℚ) (ab : ℕ × ℕ) : Option Seg :=
  if (x0 + step * (ab.2 : ℚ)) - (x0 + step * (ab.1 : ℚ)) ≥ minSpan
  then some ⟨round2 (x0 + step * (ab.1 : ℚ)), round2 (x0 + step * (ab.2 : ℚ))⟩
  else none

/-- The loop-state `runStart` value corresponding to an open run that
began at sample index `a`. -/
def curState (x0 step : ℚ) : Option ℕ → Option ℚ
  | none => none
  | some a => some (x0 + step * (a : ℚ))

/-- Loop/spec correspondence: running the imperative sampling loop and then
closing the final run yields exactly the maximal accepted runs of the
sample grid, each kept iff its span reaches `minSpan` and rounded to two
decimals. -/
theorem sampleGo_runs (ok : ℚ → Bool) (x0 step minSpan x1 : ℚ) (samples : ℕ)
    (hx1 : x0 + step * (samples : ℚ) = x1) :
    ∀ (rem i : ℕ) (cur : Option ℕ) (p : ℚ) (segs : List Seg),
      i + rem = samples + 1 →
      (cur = none ∨ ∃ a, cur = some a ∧ 1 ≤ i ∧ p = x0 + step * ((i : ℚ) - 1)) →
      finalizeSampler minSpan x1
          (sampleGo ok x0 step minSpan rem i (curState x0 step cur, p, segs)) =
        segs ++ (runsGo (fun j => ok (x0 + step * (j : ℚ))) rem i cur).filterMap
          (closeRun x0 step minSpan) := by
  intro rem
  induction rem with
  | zero =>
    intro i cur p segs hn hcur
    rcases hcur with rfl | ⟨a, rfl, hi, hp⟩
    · simp [sampleGo, curState, finalizeSampler, runsGo]
    · have hisamp : i - 1 = samples := by omega
      simp only [sampleGo, curState, finalizeSampler, runsGo, hisamp,
        List.filterMap_cons, List.filterMap_nil, closeRun, hx1]
      split_ifs <;> simp
  | succ n ih =>
    intro i cur p segs hn hcur
    by_cases hacc : ok (x0 + step * (i : ℚ))
    · rcases hcur with rfl | ⟨a, rfl, hi, hp⟩
      · simp only [sampleGo, curState, Option.isNone_none, if_pos hacc, if_true]
        have := ih (i + 1) (some i) (x0 + step * (i : ℚ)) segs (by omega)
          (Or.inr ⟨i, rfl, by omega, by push_cast; ring⟩)
        simp only [curState] at this
        rw [this]
        simp only [runsGo, hacc, if_true, Option.getD_none]
      · simp only [sampleGo, curState, Option.isNone_some, Bool.false_eq_true,
          if_false, if_pos hacc]
        have := ih (i + 1) (some a) (x0 + step * (i : ℚ)) segs (by omega)
          (Or.inr ⟨a, rfl, by omega, by push_cast; ring⟩)
        simp only [curState] at this
        rw [this]
        simp only [runsGo, hacc, if_true, Option.getD_some]
    · rcases hcur with rfl | ⟨a, rfl, hi, hp⟩
      · simp only [sampleGo, curState, if_neg hacc]
        have := ih (i + 1) none (x0 + step * (i : ℚ)) segs (by omega) (Or.inl rfl)
        simp only [curState] at this
        rw [this]
        simp only [runsGo, hacc, Bool.false_eq_true, if_false]
      · simp only [sampleGo, curState, if_neg hacc]
        have hi1 : ((i - 1 : ℕ) : ℚ) = (i : ℚ) - 1 := by
          push_cast [hi]
          ring
        by_cases hspan : p - (x0 + step * (a : ℚ)) ≥ minSpan
        · rw [if_pos hspan]
          have := ih (i + 1) none (x0 + step * (i : ℚ))
            (segs ++ [⟨round2 (x0 + step * (a : ℚ)), round2 p⟩]) (by omega) (Or.inl rfl)
          simp only [curState] at this
          rw [this]
          simp only [runsGo, hacc, Bool.false_eq_true, if_false, List.filterMap_cons,
            closeRun, hi1, ← hp]
          rw [if_pos (by linarith)]
          simp [List.append_assoc]
        · rw [if_neg hspan]
          have := ih (i + 1) none (x0 + step * (i : ℚ)) segs (by omega) (Or.inl rfl)
          simp only [curState] at this
          rw [this]
          simp only [runsGo, hacc, Bool.false_eq_true, if_false, List.filterMap_cons,
            closeRun, hi1, ← hp]
          rw [if_neg (by intro hc; exact hspan (by linarith))]

/-- On a risky expression with a working evaluator, `splitFunctionDomains`
returns the `minSpan`-qualifying maximal accepted runs of the 240-point
sample grid (rounded and clamped), falling back to the whole interval when
no run qualifies. -/
theorem splitFunctionDomains_risky (expr : String) (f : ℚ → Option ℚ)
    (xmin xmax : ℚ) (ymin ymax : Option ℚ) (samples : ℕ)
    (h : xmin < xmax) (hs : samples ≠ 0)
    (hrisky : hasPotentialDiscontinuity expr = true) :
    splitFunctionDomains expr (some f) xmin xmax ymin ymax samples =
      (let y0 := ymin.getD 0
       let y1 := ymax.getD 0
       let step := (xmax - xmin) / (samples : ℚ)
       let minSpan := max (step * (3/2)) ((xmax - xmin) * (1/100))
       let segs := (maximalRuns
           (fun j => sampleOK f (decide (y0 < y1)) y0 y1 (xmin + step * (j : ℚ)))
           samples).filterMap (closeRun xmin step minSpan)
       if segs = [] then [⟨round2 xmin, round2 xmax⟩]
       else (segs.filter fun s => s.start < s.stop).map
         fun s => ⟨max (round2 xmin) s.start, min (round2 xmax) s.stop⟩) := by
  have hsq : ((samples : ℚ)) ≠ 0 := Nat.cast_ne_zero.mpr hs
  have hx1 : xmin + (xmax - xmin) / (samples : ℚ) * (samples : ℚ) = xmax := by
    field_simp
  have key := sampleGo_runs
    (sampleOK f (decide (ymin.getD 0 < ymax.getD 0)) (ymin.getD 0) (ymax.getD 0))
    xmin ((xmax - xmin) / (samples : ℚ))
    (max ((xmax - xmin) / (samples : ℚ) * (3/2)) ((xmax - xmin) * (1/100)))
    xmax samples hx1 (samples + 1) 0 none xmin [] (by omega) (Or.inl rfl)
  unfold splitFunctionDomains
  rw [if_neg (not_not_intro h), if_neg (by rw [hrisky]; simp)]
  simp only [curState, List.nil_append] at key
  simp only [maximalRuns]
  rw [key]

/-- Two acceptance functions agreeing on the scanned index range produce
the same runs. -/
theorem runsGo_congr (acc acc' : ℕ → Bool) :
    ∀ (rem i : ℕ) (cur : Option ℕ),
      (∀ j, i ≤ j → j < i + rem → acc j = acc' j) →
      runsGo acc rem i cur = runsGo acc' rem i cur := by
  intro rem
  induction rem with
  | zero => intro i cur _; rfl
  | succ n ih =>
    intro i cur h
    have hi : acc i = acc' i := h i le_rfl (by omega)
    simp only [runsGo, hi]
    have htail : ∀ j, i + 1 ≤ j → j < i + 1 + n → acc j = acc' j := by
      intro j h1 h2
      exact h j (by omega) (by omega)
    by_cases hb : acc' i = true
    · rw [hb]
      simp only [if_true]
      exact ih (i + 1) (some (cur.getD i)) htail
    · rw [Bool.not_eq_true] at hb
      rw [hb]
      simp only [Bool.false_eq_true, if_false]
      cases cur with
      | none => exact ih (i + 1) none htail
      | some a => rw [ih (i + 1) none htail]

/-- The JS evaluator `buildExprEvaluator("1/x")` computes `1/(x)` in IEEE
arithmetic: at `x = 0` it yields `Infinity`, which the sampler's
`Number.isFinite` test rejects — modelled as `none`; elsewhere the exact
quotient. -/
def eval1x : ℚ → Option ℚ := fun x => if x = 0 then none else some (1 / x)

/-- Over `[-5, 5]` with 240 samples, the `1/x` sample at index `j` is
accepted exactly when `j ≠ 120` (the sample at `x = 0`). -/
theorem c4_accept_pattern (j : ℕ) (hj : j < 241) :
    sampleOK eval1x (decide ((0:ℚ) < 0)) 0 0 (-5 + (5 - (-5)) / (240 : ℚ) * (j : ℚ)) =
      decide (j ≠ 120) := by
  have hstep : ((5 : ℚ) - (-5)) / (240 : ℚ) = 1/24 := by norm_num
  rw [hstep]
  unfold sampleOK eval1x
  by_cases hz : (-5 + 1/24 * (j : ℚ)) = 0
  · have hj120 : (j : ℚ) = 120 := by linarith
    have hj' : j = 120 := by exact_mod_cast hj120
    rw [if_pos hz]
    subst hj'
    simp
  · have hj120 : j ≠ 120 := by
      intro hc
      apply hz
      rw [hc]
      norm_num
    rw [if_neg hz]
    simp [hj120]

/-- The maximal accepted runs of the `j ≠ 120` pattern over `[0, 240]`. -/
theorem c4_runs :
    maximalRuns (fun j => decide (j ≠ 120)) 240 = [(0, 119), (121, 240)] := by
  decide

/-- The concrete value of the `1/x` domain split over `[-5, 5]`. -/
theorem c4_value :
    splitFunctionDomains "1/x" (some eval1x) (-5) 5 none none 240 =
      [⟨-5, -(1/25)⟩, ⟨1/25, 5⟩] := by
  rw [splitFunctionDomains_risky "1/x" eval1x (-5) 5 none none 240
    (by norm_num) (by norm_num) (by decide)]
  simp only [Option.getD_none, maximalRuns, Nat.cast_ofNat]
  rw [runsGo_congr _ (fun j => decide (j ≠ 120)) (240 + 1) 0 none
    (fun j _ hj => c4_accept_pattern j (by omega))]
  rw [show runsGo (fun j => decide (j ≠ 120)) (240 + 1) 0 none =
    [(0, 119), (121, 240)] from c4_runs]
  norm_num [closeRun, round2, roundHalfAway, List.filterMap_cons]
  simp

/-- C4: splitting `1/x` over `x ∈ [-5, 5]` (with the default `null`
y-bounds of the source's parameter list) yields exactly the two intervals
`[-5, -0.04]` and `[0.04, 5]`: at least two sub-intervals, pairwise
disjoint, and none containing `x = 0`. -/
theorem c4_reciprocal_split :
    splitFunctionDomains "1/x" (some eval1x) (-5) 5 none none 240 =
      [⟨-5, -(1/25)⟩, ⟨1/25, 5⟩] ∧
    2 ≤ (splitFunctionDomains "1/x" (some eval1x) (-5) 5 none none 240).length ∧
    (∀ s ∈ splitFunctionDomains "1/x" (some eval1x) (-5) 5 none none 240,
      ∀ t ∈ splitFunctionDomains "1/x" (some eval1x) (-5) 5 none none 240,
        s ≠ t → s.stop < t.start ∨ t.stop < s.start) ∧
    (∀ s ∈ splitFunctionDomains "1/x" (some eval1x) (-5) 5 none none 240,
      ¬(s.start ≤ 0 ∧ 0 ≤ s.stop)) := by
  refine ⟨c4_value, ?_, ?_, ?_⟩ <;> rw [c4_value]
  · norm_num
  · intro s hs t ht hne
    simp only [List.mem_cons, List.mem_singleton, List.not_mem_nil, or_false] at hs ht
    rcases hs with rfl | rfl <;> rcases ht with rfl | rfl <;>
      first
      | exact absurd rfl hne
      | norm_num
  · intro s hs
    simp only [List.mem_cons, List.mem_singleton, List.not_mem_nil, or_false] at hs
    rcases hs with rfl | rfl <;> norm_num

/-- The function-category output for a single visible function in
`generateFunctions` (tikz-generator.js:374–411), abstracted to its decision
structure: either the "no drawable interval" comment, or one
`\draw … plot` statement per returned domain, all wrapped in the single
clip scope produced by `wrapWithBoundsClip`. -/
inductive FunctionRender where
  | comment
  | clippedPlots (domains : List Seg)
  deriving DecidableEq, Repr

/-- `generateFunctions` for one function: split the domains (samples
defaulting to 240, y-limits the viewport's), then emit one plot statement
per domain inside the clip scope, or a comment when no domain remains. -/
def generateFunctionPlan (expr : String) (evalFn : Option (ℚ → Option ℚ))
    (b : Bounds) : FunctionRender :=
  let domains := splitFunctionDomains expr evalFn b.xmin b.xmax (some b.ymin) (some b.ymax) 240
  if domains = [] then FunctionRender.comment
  else FunctionRender.clippedPlots domains

/-- The spec-side description of the adaptive sampling: accept each of the
241 grid samples iff the evaluator yields a finite value inside the
viewport y-range, keep each maximal accepted run whose span reaches
`max(1.5·step, 1% of the x-range)`, round and clamp; fall back to the whole
interval when no run qualifies. -/
def riskyDomainsSpec (fn : ℚ → Option ℚ) (b : Bounds) : List Seg :=
  let step := (b.xmax - b.xmin) / (240 : ℚ)
  let minSpan := max (step * (3/2)) ((b.xmax - b.xmin) * (1/100))
  let segs := (maximalRuns
      (fun j => sampleOK fn (decide (b.ymin < b.ymax)) b.ymin b.ymax
        (b.xmin + step * (j : ℚ))) 240).filterMap (closeRun b.xmin step minSpan)
  if segs = [] then [⟨round2 b.xmin, round2 b.xmax⟩]
  else (segs.filter fun s => s.start < s.stop).map
    fun s => ⟨max (round2 b.xmin) s.start, min (round2 b.xmax) s.stop⟩

/-- C3 (amended): for a non-risky expression (no `/`, none of
`tan/cot/sec/csc/ln/log/sqrt/asin/acos`) the generator emits exactly one
whole-interval plot statement inside the clip scope; for a risky expression
it adaptively samples 240 points across the viewport x-range (rejecting
samples outside the viewport y-range) and returns one domain per maximal
continuous sub-interval of span at least `max(1.5·step, 1% of range)` —
falling back to a single whole-interval statement when no sub-interval
qualifies — and the generator emits exactly one domain-bounded plot
statement per returned domain. -/
theorem c3_plotting (expr : String) (fn : ℚ → Option ℚ) (b : Bounds)
    (hx : b.xmin < b.xmax) :
    (hasPotentialDiscontinuity expr = false →
      splitFunctionDomains expr (some fn) b.xmin b.xmax
          (some b.ymin) (some b.ymax) 240 = [⟨round2 b.xmin, round2 b.xmax⟩] ∧
      generateFunctionPlan expr (some fn) b =
        FunctionRender.clippedPlots [⟨round2 b.xmin, round2 b.xmax⟩]) ∧
    (hasPotentialDiscontinuity expr = true →
      splitFunctionDomains expr (some fn) b.xmin b.xmax
          (some b.ymin) (some b.ymax) 240 = riskyDomainsSpec fn b) ∧
    (∀ ds, splitFunctionDomains expr (some fn) b.xmin b.xmax
        (some b.ymin) (some b.ymax) 240 = ds → ds ≠ [] →
      generateFunctionPlan expr (some fn) b = FunctionRender.clippedPlots ds) := by
  refine ⟨fun hnr => ?_, fun hr => ?_, fun ds hds hne => ?_⟩
  · have hsplit : splitFunctionDomains expr (some fn) b.xmin b.xmax
        (some b.ymin) (some b.ymax) 240 = [⟨round2 b.xmin, round2 b.xmax⟩] := by
      unfold splitFunctionDomains
      rw [if_neg (not_not_intro hx), if_pos hnr]
    refine ⟨hsplit, ?_⟩
    unfold generateFunctionPlan
    rw [hsplit]
    simp
  · rw [splitFunctionDomains_risky expr fn b.xmin b.xmax (some b.ymin) (some b.ymax)
      240 hx (by norm_num) hr]
    simp only [Option.getD_some]
    rfl
  · unfold generateFunctionPlan
    rw [hds, if_neg hne]

/-- Example bounds for the C3 witness. -/
def c3Bex : Bounds := ⟨-5, 5, -5, 5⟩

/-- Example evaluator for the C3 witness (for `x^2 + 1`). -/
def c3Fnex : ℚ → Option ℚ := fun x => some (x * x + 1)

/-- C3 (witness): the plotting theorem applied at the non-risky expression
`x^2 + 1` over the default viewport. -/
theorem c3_plotting_witness :
    c3Bex.xmin < c3Bex.xmax ∧
    ((hasPotentialDiscontinuity "x^2 + 1" = false →
      splitFunctionDomains "x^2 + 1" (some c3Fnex) c3Bex.xmin c3Bex.xmax
          (some c3Bex.ymin) (some c3Bex.ymax) 240 =
        [⟨round2 c3Bex.xmin, round2 c3Bex.xmax⟩] ∧
      generateFunctionPlan "x^2 + 1" (some c3Fnex) c3Bex =
        FunctionRender.clippedPlots [⟨round2 c3Bex.xmin, round2 c3Bex.xmax⟩]) ∧
    (hasPotentialDiscontinuity "x^2 + 1" = true →
      splitFunctionDomains "x^2 + 1" (some c3Fnex) c3Bex.xmin c3Bex.xmax
          (some c3Bex.ymin) (some c3Bex.ymax) 240 = riskyDomainsSpec c3Fnex c3Bex) ∧
    (∀ ds, splitFunctionDomains "x^2 + 1" (some c3Fnex) c3Bex.xmin c3Bex.xmax
        (some c3Bex.ymin) (some c3Bex.ymax) 240 = ds → ds ≠ [] →
      generateFunctionPlan "x^2 + 1" (some c3Fnex) c3Bex =
        FunctionRender.clippedPlots ds)) :=
  ⟨by norm_num [c3Bex], c3_plotting "x^2 + 1" c3Fnex c3Bex (by norm_num [c3Bex])⟩

/-- A stand-in for the JS evaluator of `ln(x)`: `Math.log` yields `NaN` on
negative inputs (and `-∞` at 0), rejected by the sampler's finiteness test
— modelled as `none` for `x ≤ 0`. -/
def evalLnNeg : ℚ → Option ℚ := fun x => if x ≤ 0 then none else some x

/-- Over the viewport x-range `[-5, -1]`, every `ln(x)` sample is
rejected. -/
theorem c3_ce_accept (j : ℕ) (hj : j < 241) :
    sampleOK evalLnNeg (decide ((0:ℚ) < 0)) 0 0 (-5 + (-1 - (-5)) / (240 : ℚ) * (j : ℚ)) =
      decide False := by
  have hx : (-5 + (-1 - (-5)) / (240 : ℚ) * (j : ℚ)) ≤ 0 := by
    have : (j : ℚ) ≤ 240 := by exact_mod_cast Nat.le_of_lt_succ hj
    nlinarith
  unfold sampleOK evalLnNeg
  rw [if_pos hx]
  simp

/-- A nowhere-accepted sample grid has no maximal runs. -/
theorem c3_ce_runs : maximalRuns (fun _ => decide False) 240 = [] := by decide

/-- C3 (counterexample): for the risky expression `ln(x)` over the
x-range `[-5, -1]` every sample is rejected, so there is no maximal
continuous sub-interval at all — the claim then predicts no plot statement —
yet `splitFunctionDomains` falls back to emitting the single whole-interval
domain `[-5, -1]`. -/
theorem c3_counterexample :
    hasPotentialDiscontinuity "ln(x)" = true ∧
    (maximalRuns
      (fun j => sampleOK evalLnNeg (decide ((0:ℚ) < 0)) 0 0
        (-5 + (-1 - (-5)) / (240 : ℚ) * (j : ℚ))) 240).filterMap
      (closeRun (-5) ((-1 - (-5)) / (240 : ℚ))
        (max ((-1 - (-5)) / (240 : ℚ) * (3/2)) ((-1 - (-5)) * (1/100)))) = [] ∧
    splitFunctionDomains "ln(x)" (some evalLnNeg) (-5) (-1) none none 240 =
      [⟨-5, -1⟩] := by
  refine ⟨by decide, ?_, ?_⟩
  · rw [maximalRuns, runsGo_congr _ (fun _ => decide False) (240 + 1) 0 none
      (fun j _ hj => c3_ce_accept j (by omega))]
    rw [show runsGo (fun _ => decide False) (240 + 1) 0 none = [] from c3_ce_runs]
    rfl
  · rw [splitFunctionDomains_risky "ln(x)" evalLnNeg (-5) (-1) none none 240
      (by norm_num) (by norm_num) (by decide)]
    simp only [Option.getD_none, maximalRuns, Nat.cast_ofNat]
    rw [runsGo_congr _ (fun _ => decide False) (240 + 1) 0 none
      (fun j _ hj => c3_ce_accept j (by omega))]
    rw [show runsGo (fun _ => decide False) (240 + 1) 0 none = [] from c3_ce_runs]
    norm_num [round2, roundHalfAway]

/-! ## Ray clipping (`TikZGenerator.rayToBounds`), tangency solving
(`GGBParser.solveTangentPoint`), and degenerate-geometry guards -/

/-- A plain coordinate pair. -/
structure Pt where
  x : ℚ
  y : ℚ
  deriving DecidableEq, Repr

/-- The point of the ray from `s` through `v` at parameter `t`
(`start.x + t*vx, start.y + t*vy` in the source). -/
def rayPoint (s v : Pt) (t : ℚ) : Pt :=
  ⟨s.x + t * (v.x - s.x), s.y + t * (v.y - s.y)⟩

/-- The candidate-acceptance rectangle test of `rayToBounds`
(tikz-generator.js:1317), with its `1e-8` slack. -/
def inRectSlack (b : Bounds) (p : Pt) : Bool :=
  decide (b.xmin - 1/10^8 ≤ p.x) && decide (p.x ≤ b.xmax + 1/10^8) &&
  decide (b.ymin - 1/10^8 ≤ p.y) && decide (p.y ≤ b.ymax + 1/10^8)

/-- The candidate list built by `rayToBounds` (tikz-generator.js:1312–1329):
for each axis whose direction component exceeds `1e-10` in magnitude, the
parameters of the two boundary-line crossings, kept when `t ≥ 0` and the
crossing point lies in the (slack-extended) viewport rectangle. -/
def rayCandidates (b : Bounds) (s through : Pt) : List (ℚ × Pt) :=
  let vx := through.x - s.x
  let vy := through.y - s.y
  let ts := (if 1/10^10 < |vx| then [(b.xmin - s.x) / vx, (b.xmax - s.x) / vx] else []) ++
            (if 1/10^10 < |vy| then [(b.ymin - s.y) / vy, (b.ymax - s.y) / vy] else [])
  ts.filterMap fun t =>
    if 0 ≤ t ∧ inRectSlack b (rayPoint s through t) = true
    then some (t, rayPoint s through t) else none

/-- `TikZGenerator.rayToBounds` (tikz-generator.js:1304–1334): degenerate
directions give `null`; otherwise the candidates are sorted by *descending*
`t` (`(a, b) => b.t - a.t`) and the first — the candidate of **largest**
parameter — becomes the segment end.  The fold keeps the earliest candidate
on ties, as the stable JS sort does (tied candidates are identical points
anyway). -/
def rayToBounds (b : Bounds) (s through : Pt) : Option (Pt × Pt) :=
  let vx := through.x - s.x
  let vy := through.y - s.y
  if |vx| < 1/10^10 ∧ |vy| < 1/10^10 then none
  else
    match rayCandidates b s through with
    | [] => none
    | c :: cs => some (s, (cs.foldl (fun best d => if best.1 < d.1 then d else best) c).2)

/-- The fold used by `rayToBounds` picks a member with maximal parameter. -/
theorem foldl_pickMax_spec (c : ℚ × Pt) (l : List (ℚ × Pt)) :
    (l.foldl (fun best d => if best.1 < d.1 then d else best) c ∈ c :: l) ∧
    ∀ d ∈ c :: l, d.1 ≤ (l.foldl (fun best d => if best.1 < d.1 then d else best) c).1 := by
  induction l generalizing c with
  | nil => simp
  | cons a t ih =>
    simp only [List.foldl_cons]
    by_cases hca : c.1 < a.1
    · rw [if_pos hca]
      obtain ⟨hmem, hle⟩ := ih a
      constructor
      · simp only [List.mem_cons]
        rcases List.mem_cons.mp hmem with h | h
        · exact Or.inr (Or.inl h)
        · exact Or.inr (Or.inr h)
      · intro d hd
        have hhead := hle _ (List.mem_cons_self a t)
        rcases List.mem_cons.mp hd with rfl | hd'
        · exact le_trans (le_of_lt hca) hhead
        · exact hle _ hd'
    · rw [if_neg hca]
      obtain ⟨hmem, hle⟩ := ih c
      constructor
      · simp only [List.mem_cons]
        rcases List.mem_cons.mp hmem with h | h
        · exact Or.inl h
        · exact Or.inr (Or.inr h)
      · intro d hd
        have hhead := hle _ (List.mem_cons_self c t)
        rcases List.mem_cons.mp hd with rfl | hd'
        · exact hhead
        rcases List.mem_cons.mp hd' with rfl | hd''
        · exact le_trans (le_of_not_lt hca) hhead
        · exact hle _ (List.mem_cons_of_mem _ hd'')

/-- Every ray candidate has a nonnegative parameter, is the ray point at
its parameter, and lies in the slack rectangle. -/
theorem rayCandidates_mem (b : Bounds) (s through : Pt) (c : ℚ × Pt)
    (hc : c ∈ rayCandidates b s through) :
    0 ≤ c.1 ∧ c.2 = rayPoint s through c.1 ∧ inRectSlack b c.2 = true := by
  unfold rayCandidates at hc
  simp only [List.mem_filterMap] at hc
  obtain ⟨t, _, hg⟩ := hc
  by_cases hcond : 0 ≤ t ∧ inRectSlack b (rayPoint s through t) = true
  · rw [if_pos hcond] at hg
    cases hg
    exact ⟨hcond.1, rfl, hcond.2⟩
  · rw [if_neg hcond] at hg
    cases hg

/-- C5 (amended): for a ray with non-degenerate direction that meets the
viewport boundary, `rayToBounds` returns the segment from the start point
to the boundary crossing of **largest** (farthest) nonnegative parameter,
not the nearest one. -/
theorem c5_ray_farthest (b : Bounds) (s through : Pt)
    (hnd : ¬(|through.x - s.x| < 1/10^10 ∧ |through.y - s.y| < 1/10^10))
    (hne : rayCandidates b s through ≠ []) :
    ∃ c ∈ rayCandidates b s through,
      rayToBounds b s through = some (s, c.2) ∧
      (∀ d ∈ rayCandidates b s through, d.1 ≤ c.1) ∧
      0 ≤ c.1 ∧ c.2 = rayPoint s through c.1 ∧ inRectSlack b c.2 = true := by
  unfold rayToBounds
  rw [if_neg hnd]
  obtain ⟨c0, cs, hcs⟩ := List.exists_cons_of_ne_nil hne
  obtain ⟨hmem, hle⟩ := foldl_pickMax_spec c0 cs
  rw [hcs]
  exact ⟨_, hmem, rfl, hle,
    rayCandidates_mem b s through _ (by rw [hcs]; exact hmem)⟩

/-- C5 (counterexample): the ray from `(-10,0)` through `(-9,0)` over the
viewport `[-5,5]²` crosses the boundary at parameters `t = 5` (point
`(-5,0)`, the nearest crossing, on the `xmin` edge) and `t = 15` (point
`(5,0)`); the code returns the segment ending at `(5,0)`, the *farthest*
crossing, contradicting the claim's "nearest". -/
theorem c5_counterexample :
    rayToBounds ⟨-5, 5, -5, 5⟩ ⟨-10, 0⟩ ⟨-9, 0⟩ = some (⟨-10, 0⟩, ⟨5, 0⟩) ∧
    (⟨5, 0⟩ : Pt) = rayPoint ⟨-10, 0⟩ ⟨-9, 0⟩ 15 ∧
    (5, (⟨-5, 0⟩ : Pt)) ∈ rayCandidates ⟨-5, 5, -5, 5⟩ ⟨-10, 0⟩ ⟨-9, 0⟩ ∧
    (⟨-5, 0⟩ : Pt).x = (⟨-5, 5, -5, 5⟩ : Bounds).xmin ∧
    ((5 : ℚ) < 15 ∧ (⟨-5, 0⟩ : Pt) ≠ (⟨5, 0⟩ : Pt)) := by
  refine ⟨?_, by norm_num [rayPoint], ?_, rfl, by norm_num, by norm_num⟩
  · norm_num [rayToBounds, rayCandidates, rayPoint, inRectSlack, List.filterMap_cons]
  · norm_num [rayCandidates, rayPoint, inRectSlack, List.filterMap_cons]

/-- `GGBParser.solveTangentPoint` (tikz-generator.js:2456–2505): eliminate
`y` when `|b| > 1e-10` (else `x` when `|a| > 1e-10`), reduce to a
single-variable quadratic `qa·t² + qb·t + qc`, take the vertex `-qb/(2qa)`
when `|qa| > 1e-10`, else the linear solution `-qc/qb` when
`|qb| > 1e-10`, else `null`. -/
def solveTangentPoint (a b c : ℚ) (mat : GGBMatrix) : Option Pt :=
  let eps : ℚ := 1/10^10
  if eps < |b| then
    let m := -a / b
    let k := -c / b
    let qa := mat.A0 + mat.A1 * m * m + mat.A3 * m
    let qb := 2 * mat.A1 * m * k + mat.A3 * k + 2 * mat.A4 + 2 * mat.A5 * m
    let qc := mat.A1 * k * k + 2 * mat.A5 * k + mat.A2
    if eps < |qa| then
      some ⟨-qb / (2 * qa), m * (-qb / (2 * qa)) + k⟩
    else if eps < |qb| then
      some ⟨-qc / qb, m * (-qc / qb) + k⟩
    else none
  else if eps < |a| then
    let m := -b / a
    let k := -c / a
    let qa := mat.A1 + mat.A0 * m * m + mat.A3 * m
    let qb := 2 * mat.A0 * m * k + mat.A3 * k + 2 * mat.A5 + 2 * mat.A4 * m
    let qc := mat.A0 * k * k + 2 * mat.A4 * k + mat.A2
    if eps < |qa| then
      some ⟨m * (-qb / (2 * qa)) + k, -qb / (2 * qa)⟩
    else if eps < |qb| then
      some ⟨m * (-qc / qb) + k, -qc / qb⟩
    else none
  else none

/-- C6 (amended): for a line `a·x + b·y + c = 0` tangent to the circle of
center `(0,0)` and radius `5` (matrix `x² + y² − 25 = 0`), whose
coefficients pass the solver's own non-degeneracy guard
(`|a| > 1e-10` or `|b| > 1e-10`), `solveTangentPoint` returns a point
lying *exactly* on the circle (`x² + y² = 5²`) and exactly on the line
(zero general-form residual). -/
theorem c6_tangent_point (a b c : ℚ) (htan : c^2 = 25 * (a^2 + b^2))
    (hnd : 1/10^10 < |a| ∨ 1/10^10 < |b|) :
    ∃ p : Pt, solveTangentPoint a b c ⟨1, 1, -25, 0, 0, 0⟩ = some p ∧
      p.x^2 + p.y^2 = 5^2 ∧ a * p.x + b * p.y + c = 0 := by
  unfold solveTangentPoint
  dsimp only
  by_cases hb : (1:ℚ)/10^10 < |b|
  · have hbne : b ≠ 0 := by
      intro h
      rw [h] at hb
      norm_num at hb
    have hb2 : 0 < b ^ 2 := by positivity
    have hS : a ^ 2 + b ^ 2 ≠ 0 := by nlinarith [sq_nonneg a]
    rw [if_pos hb]
    have h1 : (1:ℚ) + 1 * (-a/b) * (-a/b) + 0 * (-a/b) = 1 + (a/b)^2 := by ring
    have hq0 : (1:ℚ) + 1 * (-a/b) * (-a/b) + 0 * (-a/b) ≠ 0 := by
      rw [h1]
      positivity
    have hqa : (1:ℚ)/10^10 < |1 + 1 * (-a/b) * (-a/b) + 0 * (-a/b)| := by
      rw [h1, abs_of_pos (by positivity)]
      nlinarith [sq_nonneg (a/b)]
    rw [if_pos hqa]
    have hD : (2:ℚ) * (1 + 1 * (-a/b) * (-a/b) + 0 * (-a/b)) ≠ 0 :=
      mul_ne_zero two_ne_zero hq0
    have hx : -(2 * 1 * (-a/b) * (-c/b) + 0 * (-c/b) + 2 * 0 + 2 * 0 * (-a/b)) /
        (2 * (1 + 1 * (-a/b) * (-a/b) + 0 * (-a/b))) = -(a*c)/(a^2+b^2) := by
      rw [div_eq_div_iff hD hS]
      field_simp
      ring
    refine ⟨⟨-(a*c)/(a^2+b^2), -(b*c)/(a^2+b^2)⟩, ?_, ?_, ?_⟩
    · simp only [Option.some.injEq, Pt.mk.injEq]
      refine ⟨hx, ?_⟩
      rw [hx]
      field_simp
      ring
    · show (-(a*c)/(a^2+b^2))^2 + (-(b*c)/(a^2+b^2))^2 = 5^2
      field_simp
      linear_combination (a^2 + b^2) * htan
    · show a * (-(a*c)/(a^2+b^2)) + b * (-(b*c)/(a^2+b^2)) + c = 0
      field_simp
      ring
  · have ha : (1:ℚ)/10^10 < |a| := hnd.resolve_right hb
    have hane : a ≠ 0 := by
      intro h
      rw [h] at ha
      norm_num at ha
    have ha2 : 0 < a ^ 2 := by positivity
    have hS : a ^ 2 + b ^ 2 ≠ 0 := by nlinarith [sq_nonneg b]
    rw [if_neg hb]
    have h1 : (1:ℚ) + 1 * (-b/a) * (-b/a) + 0 * (-b/a) = 1 + (b/a)^2 := by ring
    have hq0 : (1:ℚ) + 1 * (-b/a) * (-b/a) + 0 * (-b/a) ≠ 0 := by
      rw [h1]
      positivity
    have hqa : (1:ℚ)/10^10 < |1 + 1 * (-b/a) * (-b/a) + 0 * (-b/a)| := by
      rw [h1, abs_of_pos (by positivity)]
      nlinarith [sq_nonneg (b/a)]
    rw [if_pos ha, if_pos hqa]
    have hD : (2:ℚ) * (1 + 1 * (-b/a) * (-b/a) + 0 * (-b/a)) ≠ 0 :=
      mul_ne_zero two_ne_zero hq0
    have hy : -(2 * 1 * (-b/a) * (-c/a) + 0 * (-c/a) + 2 * 0 + 2 * 0 * (-b/a)) /
        (2 * (1 + 1 * (-b/a) * (-b/a) + 0 * (-b/a))) = -(b*c)/(a^2+b^2) := by
      rw [div_eq_div_iff hD hS]
      field_simp
      ring
    refine ⟨⟨-(a*c)/(a^2+b^2), -(b*c)/(a^2+b^2)⟩, ?_, ?_, ?_⟩
    · simp only [Option.some.injEq, Pt.mk.injEq]
      refine ⟨?_, hy⟩
      rw [hy]
      field_simp
      ring
    · show (-(a*c)/(a^2+b^2))^2 + (-(b*c)/(a^2+b^2))^2 = 5^2
      field_simp
      linear_combination (a^2 + b^2) * htan
    · show a * (-(a*c)/(a^2+b^2)) + b * (-(b*c)/(a^2+b^2)) + c = 0
      field_simp
      ring

/-- C6 (counterexample): the claim as stated quantifies over *every* line
with finite coefficients.  The line `(1e-11)·x − 5e-11 = 0` (the genuine
tangent `x = 5`, written with tiny coefficients) is tangent to the circle,
yet both eliminations are skipped (`|b| = 0` and `|a| = 1e-11` are below
the `1e-10` guard) and the solver returns `null` instead of a point. -/
theorem c6_counterexample :
    solveTangentPoint (1/10^11) 0 (-(5/10^11)) ⟨1, 1, -25, 0, 0, 0⟩ = none ∧
    (-(5/10^11) : ℚ)^2 = 25 * ((1/10^11)^2 + (0:ℚ)^2) ∧
    (1/10^11 : ℚ) ≠ 0 := by
  refine ⟨?_, by norm_num, by norm_num⟩
  unfold solveTangentPoint
  rw [if_neg (by norm_num), if_neg (by rw [abs_of_nonneg (by norm_num)]; norm_num)]

/-- C6 (witness): the tangent line `y = 5` (`0·x + 1·y − 5 = 0`). -/
theorem c6_tangent_point_witness :
    ((-5 : ℚ)^2 = 25 * ((0:ℚ)^2 + (1:ℚ)^2)) ∧
    ((1:ℚ)/10^10 < |(0:ℚ)| ∨ (1:ℚ)/10^10 < |(1:ℚ)|) ∧
    (∃ p : Pt, solveTangentPoint 0 1 (-5) ⟨1, 1, -25, 0, 0, 0⟩ = some p ∧
      p.x^2 + p.y^2 = 5^2 ∧ 0 * p.x + 1 * p.y + (-5) = 0) :=
  ⟨by norm_num, Or.inr (by norm_num),
    c6_tangent_point 0 1 (-5) (by norm_num) (Or.inr (by norm_num))⟩

/-- `TikZGenerator.circumcenter` (tikz-generator.js:741–758): the standard
two-equation solve; `null` when `|d| < 1e-12` (the `Number.isFinite(d)`
test cannot fail over ℚ). -/
def circumcenter (a b c : Pt) : Option Pt :=
  let d := 2 * (a.x * (b.y - c.y) + b.x * (c.y - a.y) + c.x * (a.y - b.y))
  if |d| < 1/10^12 then none
  else
    some ⟨((a.x*a.x + a.y*a.y) * (b.y - c.y) + (b.x*b.x + b.y*b.y) * (c.y - a.y) +
        (c.x*c.x + c.y*c.y) * (a.y - b.y)) / d,
      ((a.x*a.x + a.y*a.y) * (c.x - b.x) + (b.x*b.x + b.y*b.y) * (a.x - c.x) +
        (c.x*c.x + c.y*c.y) * (b.x - a.x)) / d⟩

/-- A line record as consumed by `toLineABC`: optional general-form
coefficients and optional endpoint coordinates (label references are
modelled as their resolved coordinates). -/
structure LineRec where
  abc : Option (ℚ × ℚ × ℚ)
  p1 : Option Pt
  p2 : Option Pt
  deriving DecidableEq, Repr

/-- `TikZGenerator.toLineABC` (tikz-generator.js:1367–1379): prefer stored
coefficients, else build them from two points, else `null`. -/
def toLineABC (l : LineRec) : Option (ℚ × ℚ × ℚ) :=
  match l.abc with
  | some v => some v
  | none =>
    match l.p1, l.p2 with
    | some p1, some p2 => some (p1.y - p2.y, p2.x - p1.x, p1.x * p2.y - p2.x * p1.y)
    | _, _ => none

/-- `TikZGenerator.intersectLines` (tikz-generator.js:1381–1391):
Cramer-rule solve, `null` when `|det| < 1e-12`. -/
def intersectLines (l1 l2 : LineRec) : Option Pt :=
  match toLineABC l1, toLineABC l2 with
  | some (a1, b1, c1), some (a2, b2, c2) =>
    let det := a1 * b2 - a2 * b1
    if |det| < 1/10^12 then none
    else some ⟨(b1 * c2 - b2 * c1) / det, (a2 * c1 - a1 * c2) / det⟩
  | _, _ => none

/-- C7: the circumcenter solver returns `none` exactly when its
determinant magnitude is below `1e-12` (near-collinear points), and the
two-line intersection solver returns `none` exactly when the Cramer
determinant magnitude is below `1e-12` (parallel/coincident lines).  Over
the exact-rational model no NaN/∞ can arise; away from the guard the
division is well-defined, so `none` is the only degeneracy report. -/
theorem c7_degenerate_guards :
    (∀ a b c : Pt,
      circumcenter a b c = none ↔
        |2 * (a.x * (b.y - c.y) + b.x * (c.y - a.y) + c.x * (a.y - b.y))| < 1/10^12) ∧
    (∀ (l1 l2 : LineRec) (a1 b1 c1 a2 b2 c2 : ℚ),
      toLineABC l1 = some (a1, b1, c1) → toLineABC l2 = some (a2, b2, c2) →
      (intersectLines l1 l2 = none ↔ |a1 * b2 - a2 * b1| < 1/10^12)) := by
  constructor
  · intro a b c
    unfold circumcenter
    dsimp only
    split_ifs with h <;> rw [one_div] at h <;> simp [h]
  · intro l1 l2 a1 b1 c1 a2 b2 c2 h1 h2
    unfold intersectLines
    rw [h1, h2]
    dsimp only
    split_ifs with h <;> rw [one_div] at h <;> simp [h]

/-- C7 (witness): the intersection guard evaluated on the axes
`x = 0` and `y = 0`. -/
theorem c7_degenerate_guards_witness :
    toLineABC ⟨some (1, 0, 0), none, none⟩ = some (1, 0, 0) ∧
    toLineABC ⟨some (0, 1, 0), none, none⟩ = some (0, 1, 0) ∧
    (intersectLines ⟨some (1, 0, 0), none, none⟩ ⟨some (0, 1, 0), none, none⟩ = none ↔
      |(1 : ℚ) * 1 - 0 * 0| < 1/10^12) :=
  ⟨rfl, rfl, c7_degenerate_guards.2 ⟨some (1, 0, 0), none, none⟩ ⟨some (0, 1, 0), none, none⟩
    1 0 0 0 1 0 rfl rfl⟩

/-! ## Three-point angles (`TikZGenerator.generateAngles`,
`shortestSignedDelta`, `isRightAngleByValue`) — modelled over ℝ since the
source uses `Math.atan2`. -/

/-- A real-valued coordinate pair for the angle pipeline. -/
structure RPt where
  x : ℝ
  y : ℝ

/-- JavaScript `Math.atan2` (principal value in `(−π, π]`, sign conventions
of the IEEE function restricted to the non-`−0` inputs used here). -/
noncomputable def atan2 (y x : ℝ) : ℝ :=
  if 0 < x then Real.arctan (y / x)
  else if x < 0 then
    (if 0 ≤ y then Real.arctan (y / x) + Real.pi else Real.arctan (y / x) - Real.pi)
  else if 0 < y then Real.pi / 2
  else if y < 0 then -(Real.pi / 2)
  else 0

/-- `TikZGenerator.angleDeg` (tikz-generator.js:737–739). -/
noncomputable def angleDeg (center p : RPt) : ℝ :=
  atan2 (p.y - center.y) (p.x - center.x) * 180 / Real.pi

/-- Truncation toward zero, the rounding of the JS `%` operator. -/
noncomputable def jsTrunc (x : ℝ) : ℤ := if 0 ≤ x then ⌊x⌋ else -⌊-x⌋

/-- The JS remainder operator `%` (sign follows the dividend). -/
noncomputable def jsMod (a n : ℝ) : ℝ := a - n * (jsTrunc (a / n) : ℝ)

/-- `TikZGenerator.shortestSignedDelta` (tikz-generator.js:1415–1421): the
signed shortest arc in `(−180, 180]`; the two sequential `if`s of the
source cannot both fire, so the nested conditional is equivalent. -/
noncomputable def shortestSignedDelta (s e : ℝ) : ℝ :=
  let d := jsMod (e - s) 360
  if 180 < d then d - 360 else if d ≤ -180 then d + 360 else d

/-- `TikZGenerator.normalizeDeltaByValue` (tikz-generator.js:1407–1413). -/
noncomputable def normalizeDeltaByValue (deltaDeg : ℝ) : ℝ :=
  let d := jsMod deltaDeg 360
  let d' := if d < 0 then d + 360 else d
  if |d'| < 1/10^6 then 360 else d'

/-- The delta selection of the three-point branch of `generateAngles`
(tikz-generator.js:1754–1760): the signed shortest arc between the two
rays, falling back to the normalized measured value (or the CCW sweep)
when it vanishes. -/
noncomputable def threePointDelta (valueDeg : Option ℝ) (p1 v p2 : RPt) : ℝ :=
  let start := angleDeg v p1
  let e := angleDeg v p2
  let d := shortestSignedDelta start e
  if |d| < 1/10^6 then
    (match valueDeg with
     | some dv => normalizeDeltaByValue dv
     | none => jsMod (e - start + 360) 360)
  else d

/-- `TikZGenerator.isRightAngleByValue` (tikz-generator.js:1550–1555):
within 1.2° of 90°. -/
def isRightAngleByValue (v : ℝ) : Prop := |v - 90| ≤ 6/5

/-- The right-angle-mark decision of the three-point branch
(tikz-generator.js:1762): `isRightAngleByValue(|delta|)` or the measured
`valueDeg` (absent measured values contribute `false`,
since `Number(undefined)` is `NaN`). -/
def threePointIsRight (valueDeg : Option ℝ) (delta : ℝ) : Prop :=
  isRightAngleByValue |delta| ∨
  (match valueDeg with
   | some dv => isRightAngleByValue dv
   | none => False)

/-- The ray from the origin through `(1,0)` is at 0°. -/
theorem angleDeg_east : angleDeg ⟨0, 0⟩ ⟨1, 0⟩ = 0 := by
  unfold angleDeg atan2
  norm_num

/-- The ray from the origin through `(0,1)` is at 90°. -/
theorem angleDeg_north : angleDeg ⟨0, 0⟩ ⟨0, 1⟩ = 90 := by
  unfold angleDeg atan2
  norm_num
  field_simp
  ring

/-- Concrete remainder: `90 % 360 = 90`. -/
theorem jsMod_90 : jsMod 90 360 = 90 := by
  unfold jsMod jsTrunc
  rw [if_pos (by norm_num)]
  have : ⌊(90 / 360 : ℝ)⌋ = 0 := by
    rw [Int.floor_eq_zero_iff]
    constructor <;> norm_num
  rw [this]
  norm_num

/-- Concrete remainder: `(-90) % 360 = -90` (JS truncated remainder). -/
theorem jsMod_neg90 : jsMod (-90) 360 = -90 := by
  unfold jsMod jsTrunc
  rw [if_neg (by norm_num)]
  have : ⌊(-(-90 / 360) : ℝ)⌋ = 0 := by
    rw [Int.floor_eq_zero_iff]
    constructor <;> norm_num
  rw [this]
  norm_num

/-- C8: for `A = (1,0)`, vertex `(0,0)`, `B = (0,1)` the three-point angle
branch computes the signed shortest arc `+90°`; swapping `A` and `B` gives
`−90°`, the same magnitude; the magnitude is within the 1.2° right-angle
threshold, so a right-angle mark is rendered in both orders. -/
theorem c8_right_angle :
    threePointDelta none ⟨1, 0⟩ ⟨0, 0⟩ ⟨0, 1⟩ = 90 ∧
    threePointDelta none ⟨0, 1⟩ ⟨0, 0⟩ ⟨1, 0⟩ = -90 ∧
    |threePointDelta none ⟨0, 1⟩ ⟨0, 0⟩ ⟨1, 0⟩| =
      |threePointDelta none ⟨1, 0⟩ ⟨0, 0⟩ ⟨0, 1⟩| ∧
    isRightAngleByValue |threePointDelta none ⟨1, 0⟩ ⟨0, 0⟩ ⟨0, 1⟩| ∧
    threePointIsRight none (threePointDelta none ⟨1, 0⟩ ⟨0, 0⟩ ⟨0, 1⟩) ∧
    threePointIsRight none (threePointDelta none ⟨0, 1⟩ ⟨0, 0⟩ ⟨1, 0⟩) := by
  have hfwd : threePointDelta none ⟨1, 0⟩ ⟨0, 0⟩ ⟨0, 1⟩ = 90 := by
    unfold threePointDelta
    rw [angleDeg_east, angleDeg_north]
    have hd : shortestSignedDelta 0 90 = 90 := by
      unfold shortestSignedDelta
      rw [show (90 : ℝ) - 0 = 90 by norm_num, jsMod_90]
      norm_num
    dsimp only
    rw [hd]
    norm_num
  have hbwd : threePointDelta none ⟨0, 1⟩ ⟨0, 0⟩ ⟨1, 0⟩ = -90 := by
    unfold threePointDelta
    rw [angleDeg_east, angleDeg_north]
    have hd : shortestSignedDelta 90 0 = -90 := by
      unfold shortestSignedDelta
      rw [show (0 : ℝ) - 90 = -90 by norm_num, jsMod_neg90]
      norm_num
    dsimp only
    rw [hd]
    norm_num
  refine ⟨hfwd, hbwd, ?_, ?_, ?_, ?_⟩
  · rw [hfwd, hbwd]
    norm_num
  · rw [hfwd]
    unfold isRightAngleByValue
    norm_num
  · left
    rw [hfwd]
    unfold isRightAngleByValue
    norm_num
  · left
    rw [hbwd]
    unfold isRightAngleByValue
    norm_num

/-! ## Point references (`TikZGenerator.pointRef`) -/

/-- `TikZGenerator.isValidTikzCoordName` (tikz-generator.js:278–280): the
regex `^[A-Za-z][A-Za-z0-9_]*$`. -/
def isValidTikzCoordName (s : String) : Bool :=
  match s.data with
  | [] => false
  | c :: cs => c.isAlpha && cs.all (fun d => d.isAlphanum || d = '_')

/-- `Number(x).toFixed(2)` as a string: optional sign, integer part, a
point, and exactly two decimal digits (rounding ties away from zero). -/
def toFixed2 (q : ℚ) : String :=
  let n : ℤ := roundHalfAway (100 * q)
  let sign := if n < 0 then "-" else ""
  let m : ℕ := n.natAbs
  sign ++ toString (m / 100) ++ "." ++
    String.mk [Nat.digitChar (m / 10 % 10), Nat.digitChar (m % 10)]

/-- One step of `resolveLabelByCoord`'s nearest-point scan
(tikz-generator.js:287–299): keep the strictly closer squared distance
(ties keep the earlier entry, as the source's strict `<` does). -/
def bestStep (coord : Pt) (best : Option (String × ℚ)) (lp : String × Pt) :
    Option (String × ℚ) :=
  let d2 := (lp.2.x - coord.x)^2 + (lp.2.y - coord.y)^2
  match best with
  | none => some (lp.1, d2)
  | some b => if d2 < b.2 then some (lp.1, d2) else some b

/-- `TikZGenerator.resolveLabelByCoord` (tikz-generator.js:282–301); the
source compares `Math.sqrt(bestD2) ≤ 5e-3`, equivalent to
`bestD2 ≤ (5e-3)²` since both sides are nonnegative. -/
def resolveLabelByCoord (pointIndex : List (String × Pt)) (coord : Pt) :
    Option String :=
  match pointIndex.foldl (bestStep coord) none with
  | some (label, d2) => if d2 ≤ (5/1000)^2 then some label else none
  | none => none

/-- Assoc-list lookup modelling `this.pointIndex[label]` (built by
`buildPointIndex`, which only stores finite coordinates). -/
def lookupPt (idx : List (String × Pt)) (l : String) : Option Pt :=
  (idx.find? (fun e => e.1 = l)).map (·.2)

/-- The generator state consumed by `pointRef`: the
`definePointCoordinates` option, the point index, and the set of labels
already emitted as `\coordinate` definitions
(`definedCoordLabels`, filled by `generatePointCoordinateDefs`). -/
structure PointRefState where
  definePointCoordinates : Bool
  pointIndex : List (String × Pt)
  definedCoordLabels : List String

/-- `TikZGenerator.pointRef` (tikz-generator.js:303–325). -/
def pointRef (st : PointRefState) (coord : Pt) (preferredLabel : Option String) :
    String :=
  if st.definePointCoordinates then
    let tryPreferred :=
      match preferredLabel with
      | some L =>
        if isValidTikzCoordName L = true ∧ (lookupPt st.pointIndex L).isSome = true ∧
            st.definedCoordLabels.contains L = true
        then some L else none
      | none => none
    match tryPreferred with
    | some L => "(" ++ L ++ ")"
    | none =>
      match resolveLabelByCoord st.pointIndex coord with
      | some inf =>
        if isValidTikzCoordName inf = true ∧ st.definedCoordLabels.contains inf = true
        then "(" ++ inf ++ ")"
        else "(" ++ toFixed2 coord.x ++ "," ++ toFixed2 coord.y ++ ")"
      | none => "(" ++ toFixed2 coord.x ++ "," ++ toFixed2 coord.y ++ ")"
  else "(" ++ toFixed2 coord.x ++ "," ++ toFixed2 coord.y ++ ")"

/-- Digit characters of small naturals are decimal digits. -/
theorem digitChar_isDigit (n : ℕ) (h : n < 10) : (Nat.digitChar n).isDigit = true := by
  interval_cases n <;> decide

/-- `toFixed2` always ends in a point followed by exactly two decimal
digits. -/
theorem toFixed2_decimals (q : ℚ) :
    ∃ pre d1 d2, toFixed2 q = pre ++ "." ++ String.mk [d1, d2] ∧
      d1.isDigit = true ∧ d2.isDigit = true := by
  unfold toFixed2
  exact ⟨_, _, _, rfl,
    digitChar_isDigit _ (Nat.mod_lt _ (by norm_num)),
    digitChar_isDigit _ (Nat.mod_lt _ (by norm_num))⟩

/-- The nearest-point fold only ever returns the initial accumulator or a
label present in the scanned list. -/
theorem bestFold_mem (coord : Pt) :
    ∀ (idx : List (String × Pt)) (acc : Option (String × ℚ)) (l : String) (d : ℚ),
      idx.foldl (bestStep coord) acc = some (l, d) →
      acc = some (l, d) ∨ ∃ p, (l, p) ∈ idx := by
  intro idx
  induction idx with
  | nil => intro acc l d h; exact Or.inl h
  | cons e t ih =>
    intro acc l d h
    simp only [List.foldl_cons] at h
    rcases ih (bestStep coord acc e) l d h with hacc | ⟨p, hp⟩
    · unfold bestStep at hacc
      rcases acc with _ | b
      · simp only [Option.some.injEq, Prod.mk.injEq] at hacc
        exact Or.inr ⟨e.2, by rw [← hacc.1]; exact List.mem_cons_self _ _⟩
      · dsimp only at hacc
        split_ifs at hacc with hlt
        · simp only [Option.some.injEq, Prod.mk.injEq] at hacc
          exact Or.inr ⟨e.2, by rw [← hacc.1]; exact List.mem_cons_self _ _⟩
        · exact Or.inl hacc
    · exact Or.inr ⟨p, List.mem_cons_of_mem _ hp⟩

/-- A label inferred by coordinate lookup names an entry of the point
index. -/
theorem resolveLabelByCoord_mem (idx : List (String × Pt)) (coord : Pt) (l : String)
    (h : resolveLabelByCoord idx coord = some l) : ∃ p, (l, p) ∈ idx := by
  unfold resolveLabelByCoord at h
  rcases hb : idx.foldl (bestStep coord) none with _ | ⟨lb, d2⟩
  · rw [hb] at h
    cases h
  · rw [hb] at h
    dsimp only at h
    split_ifs at h with hd
    · injection h with h'
      subst h'
      rcases bestFold_mem coord idx none lb d2 hb with hacc | hp
      · cases hacc
      · exact hp

/-- A successful label lookup names an entry of the point index. -/
theorem lookupPt_mem (idx : List (String × Pt)) (l : String) (p : Pt)
    (h : lookupPt idx l = some p) : (l, p) ∈ idx := by
  unfold lookupPt at h
  rcases hf : idx.find? (fun e => e.1 = l) with _ | e
  · rw [hf] at h
    cases h
  · rw [hf] at h
    simp only [Option.map_some', Option.some.injEq] at h
    have hmem := List.mem_of_find?_eq_some hf
    have hkey := List.find?_some hf
    simp only [decide_eq_true_eq] at hkey
    have : e = (l, p) := by
      rcases e with ⟨e1, e2⟩
      cases h
      simp only at hkey
      rw [hkey]
    rw [← this]
    exact hmem

/-- C10: every reference emitted by `pointRef` is either a named reference
`(L)` whose label passes the TikZ-name regex, was previously emitted as a
`\coordinate` definition, and maps to coordinates in the point index — or
a literal pair with both components formatted to exactly two decimals; and
with `definePointCoordinates` disabled the literal form is always
produced. -/
theorem c10_point_ref (st : PointRefState) (coord : Pt) (pref : Option String) :
    ((∃ L, pointRef st coord pref = "(" ++ L ++ ")" ∧
        isValidTikzCoordName L = true ∧
        st.definedCoordLabels.contains L = true ∧
        ∃ p, (L, p) ∈ st.pointIndex) ∨
      pointRef st coord pref =
        "(" ++ toFixed2 coord.x ++ "," ++ toFixed2 coord.y ++ ")") ∧
    (st.definePointCoordinates = false →
      pointRef st coord pref =
        "(" ++ toFixed2 coord.x ++ "," ++ toFixed2 coord.y ++ ")") ∧
    (∀ q : ℚ, ∃ pre d1 d2, toFixed2 q = pre ++ "." ++ String.mk [d1, d2] ∧
      d1.isDigit = true ∧ d2.isDigit = true) := by
  refine ⟨?_, ?_, fun q => toFixed2_decimals q⟩
  · unfold pointRef
    by_cases hdef : st.definePointCoordinates
    · rw [if_pos hdef]
      rcases pref with _ | L
      · dsimp only
        rcases hres : resolveLabelByCoord st.pointIndex coord with _ | inf
        · exact Or.inr rfl
        · dsimp only
          by_cases hok : isValidTikzCoordName inf = true ∧
              st.definedCoordLabels.contains inf = true
          · rw [if_pos hok]
            exact Or.inl ⟨inf, rfl, hok.1, hok.2,
              resolveLabelByCoord_mem _ _ _ hres⟩
          · rw [if_neg hok]
            exact Or.inr rfl
      · dsimp only
        by_cases hokL : isValidTikzCoordName L = true ∧
            (lookupPt st.pointIndex L).isSome = true ∧
            st.definedCoordLabels.contains L = true
        · rw [if_pos hokL]
          obtain ⟨p, hp⟩ := Option.isSome_iff_exists.mp hokL.2.1
          exact Or.inl ⟨L, rfl, hokL.1, hokL.2.2, p, lookupPt_mem _ _ _ hp⟩
        · rw [if_neg hokL]
          rcases hres : resolveLabelByCoord st.pointIndex coord with _ | inf
          · exact Or.inr rfl
          · dsimp only
            by_cases hok : isValidTikzCoordName inf = true ∧
                st.definedCoordLabels.contains inf = true
            · rw [if_pos hok]
              exact Or.inl ⟨inf, rfl, hok.1, hok.2,
                resolveLabelByCoord_mem _ _ _ hres⟩
            · rw [if_neg hok]
              exact Or.inr rfl
    · rw [if_neg hdef]
      exact Or.inr rfl
  · intro hfalse
    unfold pointRef
    rw [if_neg (by rw [hfalse]; exact Bool.false_ne_true)]


/-- Example bounds, start and through points for the C5 witness. -/
def c5Bex : Bounds := ⟨-5, 5, -5, 5⟩

/-- Start point of the C5 witness ray. -/
def c5Sex : Pt := ⟨-10, 0⟩

/-- Through point of the C5 witness ray. -/
def c5Tex : Pt := ⟨-9, 0⟩

/-- C5 (witness): the farthest-crossing theorem applied to the ray from
`(-10, 0)` through `(-9, 0)` over the viewport `[-5,5]²`. -/
theorem c5_ray_farthest_witness :
    ¬(|c5Tex.x - c5Sex.x| < 1/10^10 ∧ |c5Tex.y - c5Sex.y| < 1/10^10) ∧
    rayCandidates c5Bex c5Sex c5Tex ≠ [] ∧
    (∃ c ∈ rayCandidates c5Bex c5Sex c5Tex,
      rayToBounds c5Bex c5Sex c5Tex = some (c5Sex, c.2) ∧
      (∀ d ∈ rayCandidates c5Bex c5Sex c5Tex, d.1 ≤ c.1) ∧
      0 ≤ c.1 ∧ c.2 = rayPoint c5Sex c5Tex c.1 ∧ inRectSlack c5Bex c.2 = true) :=
  ⟨by norm_num [c5Sex, c5Tex],
    by
      norm_num [c5Bex, c5Sex, c5Tex, rayCandidates, rayPoint, inRectSlack,
        List.filterMap_cons]
      simp,
    c5_ray_farthest c5Bex c5Sex c5Tex (by norm_num [c5Sex, c5Tex])
      (by
        norm_num [c5Bex, c5Sex, c5Tex, rayCandidates, rayPoint, inRectSlack,
          List.filterMap_cons]
        simp)⟩

/-- C10 (witness): with `definePointCoordinates` off, the literal
two-decimal form is produced. -/
theorem c10_point_ref_witness :
    pointRef ⟨false, [], []⟩ ⟨3, 4⟩ none =
      "(" ++ toFixed2 3 ++ "," ++ toFixed2 4 ++ ")" :=
  (c10_point_ref ⟨false, [], []⟩ ⟨3, 4⟩ none).2.1 rfl

end GGBTikz
